import Mathlib

/-!
Shallow embedding of the shelly-monitor program (src/shelly-monitor.py) and
verification of its specification claims.

The program polls a power-metering device at a fixed cadence, records readings,
detects change events (exact-equality comparison of consecutive power values),
stores sample-index gaps between changes in an interval list, and finally
analyzes the intervals (min/avg/max, with a recommendation to double the
sampling period when the minimum interior gap is at least 2 samples).

Powers and timestamps are modelled as rationals; sample indices and interval
values as integers (Python integer subtraction is unbounded).  A poll outcome
is an `Option (timestamp, power)`: `none` models a failed poll (`get_power`
returning `None`).  The network call itself is I/O and enters the model only
through this oracle input.
-/

namespace ShellyMonitor

/-- The mutable instance state of the `ShellyMonitor` class: the reading log
`data` (pairs of timestamp and power), `last_measurement`, the `intervals`
list of sample gaps between detected changes, `last_change_idx`, and the
fixed `sampling_period` (1.0 in `__init__`).  The `ip`/`url`/filename strings
and the `running` flag are I/O glue: the loop is modelled by folding over a
finite list of poll outcomes instead. -/
structure MonitorState where
  data : List (ℚ × ℚ)
  last_measurement : Option ℚ
  intervals : List ℤ
  last_change_idx : Option ℤ
  sampling_period : ℚ
deriving DecidableEq, Repr

/-- The state built by `__init__`: empty log, no last measurement, empty
interval list, no last change index, sampling period 1.0. -/
def init_state : MonitorState :=
  { data := []
    last_measurement := none
    intervals := []
    last_change_idx := none
    sampling_period := 1 }

/-- The method `ShellyMonitor.check_value_change(power, current_idx)` (lines 42-53):
on the first reading (`last_measurement is None`) record the measurement and
the index and return; otherwise, if the value differs from the last
measurement, append `current_idx - last_change_idx` to `intervals` when
`last_change_idx is not None`, then update `last_measurement` and
`last_change_idx`. -/
def check_value_change (s : MonitorState) (power : ℚ) (current_idx : ℤ) :
    MonitorState :=
  match s.last_measurement with
  | none =>
      { s with last_measurement := some power, last_change_idx := some current_idx }
  | some last =>
      if last ≠ power then
        let s1 :=
          match s.last_change_idx with
          | some lci => { s with intervals := s.intervals ++ [current_idx - lci] }
          | none => s
        { s1 with last_measurement := some power, last_change_idx := some current_idx }
      else
        s

/-- The state of the `monitor` loop: the instance state plus the loop-local
`current_idx` counter (initialised to 0, incremented only on successful
polls). -/
structure LoopState where
  ms : MonitorState
  current_idx : ℤ
deriving DecidableEq, Repr

/-- Loop state at entry of `monitor`: fresh instance state, `current_idx = 0`. -/
def init_loop : LoopState :=
  { ms := init_state, current_idx := 0 }

/-- One iteration of the `monitor` while-loop (lines 133-151) for a given poll
outcome.  A failed poll (`power is None`) changes nothing.  A successful poll
appends `(timestamp, power)` to the log, runs `check_value_change` with the
current index, and increments `current_idx`.  (The printing and the sleep are
I/O; the sleep duration is modelled separately by `sleep_time`.) -/
def monitor_iter (ls : LoopState) (poll : Option (ℚ × ℚ)) : LoopState :=
  match poll with
  | none => ls
  | some (t, power) =>
      let ms1 := { ls.ms with data := ls.ms.data ++ [(t, power)] }
      let ms2 := check_value_change ms1 power ls.current_idx
      { ms := ms2, current_idx := ls.current_idx + 1 }

/-- The `monitor` loop run over a finite list of poll outcomes (the cooperative
stop signal ends the loop after finitely many iterations; the list is that
finite trace of outcomes). -/
def monitor_run (ls : LoopState) (polls : List (Option (ℚ × ℚ))) : LoopState :=
  polls.foldl monitor_iter ls

/-- The sleep computation at lines 149-150 of `monitor`:
`sleep_time = max(0, self.sampling_period - elapsed)`. -/
def sleep_time (sampling_period elapsed : ℚ) : ℚ :=
  max 0 (sampling_period - elapsed)

/-- Result of `analyze_intervals` (lines 59-95).  The two early returns are the
strings "Not enough data for analysis" and "Not enough intervals for
analysis"; otherwise the report is determined by the total sample count, the
number of value changes (`len(self.intervals)`), min/avg/max over the
intervals with the last one removed, and the optional recommendation (the new
sampling period `sampling_period * 2` together with the echoed
`min_samples`). -/
inductive AnalysisResult where
  | notEnoughData
  | notEnoughIntervals
  | report (totalSamples numChanges : ℕ) (minSamples : ℤ) (avgSamples : ℚ)
      (maxSamples : ℤ) (recommendation : Option (ℚ × ℤ))
deriving DecidableEq, Repr

/-- The method `ShellyMonitor.analyze_intervals` (lines 59-95): return "Not enough data"
when fewer than 2 intervals were stored; drop the last (possibly incomplete)
interval; return "Not enough intervals" if nothing remains; otherwise compute
min/avg/max over the remaining intervals and recommend doubling the sampling
period exactly when `min_samples >= 2`. -/
def analyze_intervals (s : MonitorState) : AnalysisResult :=
  if s.intervals.length < 2 then .notEnoughData
  else
    match s.intervals.dropLast with
    | [] => .notEnoughIntervals
    | a :: rest =>
        let min_samples : ℤ := rest.foldl min a
        let avg_samples : ℚ :=
          (((a :: rest).map (Int.cast : ℤ → ℚ)).sum) / ((a :: rest).length : ℚ)
        let max_samples : ℤ := rest.foldl max a
        let recommendation : Option (ℚ × ℤ) :=
          if 2 ≤ min_samples then some (s.sampling_period * 2, min_samples)
          else none
        .report s.data.length s.intervals.length min_samples avg_samples
          max_samples recommendation

/-- True on the two insufficient-data results, false on a report. -/
def AnalysisResult.isInsufficient : AnalysisResult → Bool
  | .report _ _ _ _ _ _ => false
  | _ => true

/-- True exactly on the second early return ("Not enough intervals for
analysis", line 67). -/
def AnalysisResult.isNotEnoughIntervals : AnalysisResult → Bool
  | .notEnoughIntervals => true
  | _ => false

/-- Calling `analyze_intervals` as the Python method does: it reads the state
(the local `intervals = self.intervals[:-1]` at line 64 does not assign to any
`self` attribute) and produces its result, leaving the state as it was. -/
def run_analysis (s : MonitorState) : AnalysisResult × MonitorState :=
  (analyze_intervals s, s)

/-- Outcome of `save_and_plot` (lines 97-126): either the early "No data
collected!" return, or the three artifacts — the CSV rows, the plotted rows
(both from `self.data`), and the analysis text. -/
inductive SaveOutcome where
  | noData
  | saved (csvRows plotRows : List (ℚ × ℚ)) (analysis : AnalysisResult)
deriving DecidableEq, Repr

/-- Number of output artifacts written: none on the no-data path, three (CSV,
plot, analysis file) otherwise. -/
def SaveOutcome.artifactCount : SaveOutcome → ℕ
  | .noData => 0
  | .saved _ _ _ => 3

/-- The method `ShellyMonitor.save_and_plot` (lines 97-126): when the reading log is
empty, print "No data collected!" and return without writing anything;
otherwise write the CSV and plot from `self.data` and the analysis from
`analyze_intervals`. -/
def save_and_plot (s : MonitorState) : SaveOutcome :=
  if s.data = [] then .noData
  else .saved s.data s.data (analyze_intervals s)

end ShellyMonitor

namespace ShellyMonitor

/-- Dropping the last element of a list of length at least 2 leaves a
non-empty list. -/
lemma dropLast_ne_nil_of_two_le (l : List ℤ) (h : ¬ l.length < 2) :
    l.dropLast ≠ [] := by
  intro hnil
  have hlen := congrArg List.length hnil
  rw [List.length_dropLast] at hlen
  simp only [List.length_nil] at hlen
  omega

/-- Claim C1 (code evaluated at the failing input): running the monitor over
the power sequence [5,5,5,7,7,7,7,3,3,9,9,9,9,9] yields the interval list
[3, 4, 2], not [4, 2]: the gap 3 from sample 0 to the first change at sample 3
is included, because `check_value_change` sets `last_change_idx` at the very
first reading, so the "Skip first interval" guard at line 49 never fires. -/
theorem c1_first_gap_is_recorded :
    (monitor_run init_loop
        (([5, 5, 5, 7, 7, 7, 7, 3, 3, 9, 9, 9, 9, 9] : List ℚ).map
          (fun p => some (0, p)))).ms.intervals = [3, 4, 2] ∧
      ([3, 4, 2] : List ℤ) ≠ [4, 2] := by
  constructor
  · decide
  · decide

/-- Concrete evaluation: running the monitor over the power sequence
[5,5,5,7,7,7,7,3] leaves the instance state with the eight readings, last
measurement 3, interval list [3, 4] (change at index 3 recording the gap from
sample 0, change at index 7 recording the gap 4) and last change index 7. -/
lemma monitor_run_5577_state :
    (monitor_run init_loop
        (([5, 5, 5, 7, 7, 7, 7, 3] : List ℚ).map (fun p => some (0, p)))).ms =
      MonitorState.mk
        [(0, 5), (0, 5), (0, 5), (0, 7), (0, 7), (0, 7), (0, 7), (0, 3)]
        (some 3) [3, 4] (some 7) 1 := by
  decide

/-- Concrete evaluation: on the state with interval list [3, 4] the analysis
drops the trailing gap 4 and reports min/avg/max 3 over the single remaining
gap, recommending the doubled period 2. -/
lemma analyze_intervals_34_report :
    analyze_intervals
        (MonitorState.mk
          [(0, 5), (0, 5), (0, 5), (0, 7), (0, 7), (0, 7), (0, 7), (0, 3)]
          (some 3) [3, 4] (some 7) 1) =
      .report 8 2 3 3 3 (some (2, 3)) := by
  norm_num [analyze_intervals, List.dropLast]

/-- Claim C2, counterexample: running the monitor over the power sequence
[5,5,5,7,7,7,7,3] stores the raw gap sequence [3, 4]; after dropping the last
element exactly one gap remains (so the claim, as stated, demands
InsufficientData), yet `analyze_intervals` produces a full report (statistics
over the single remaining gap 3, with a recommendation). -/
theorem c2_two_gaps_counterexample :
    (monitor_run init_loop
        (([5, 5, 5, 7, 7, 7, 7, 3] : List ℚ).map
          (fun p => some (0, p)))).ms.intervals.dropLast.length = 1 ∧
      analyze_intervals
          (monitor_run init_loop
            (([5, 5, 5, 7, 7, 7, 7, 3] : List ℚ).map
              (fun p => some (0, p)))).ms =
        .report 8 2 3 3 3 (some (2, 3)) := by
  constructor
  · decide
  · rw [monitor_run_5577_state]
    exact analyze_intervals_34_report

/-- Claim C2, amended: the analysis reports an insufficient-data message
exactly when the stored interval list has fewer than 2 elements BEFORE the
trailing gap is dropped (equivalently, when dropping the last element leaves
0 gaps); with exactly 2 raw gaps, statistics are computed over the single gap
remaining after the discard. -/
theorem c2_insufficient_iff_fewer_than_two_raw_gaps (s : MonitorState) :
    ((analyze_intervals s).isInsufficient = true) ↔ s.intervals.length < 2 := by
  by_cases h : s.intervals.length < 2
  · simp [analyze_intervals, h, AnalysisResult.isInsufficient]
  · obtain ⟨a, rest, he⟩ :=
      List.exists_cons_of_ne_nil (dropLast_ne_nil_of_two_le s.intervals h)
    simp [analyze_intervals, h, he, AnalysisResult.isInsufficient]

/-- Claim C3: whenever `analyze_intervals` produces a report, the
recommendation is present if and only if the minimum over the interior gaps is
at least 2 samples, and the recommended new sampling period is exactly
`sampling_period * 2`. -/
theorem c3_recommendation_iff_min_ge_two (s : MonitorState) (t c : ℕ)
    (minS : ℤ) (avg : ℚ) (maxS : ℤ) (rec : Option (ℚ × ℤ))
    (h : analyze_intervals s = .report t c minS avg maxS rec) :
    (rec.isSome = true ↔ 2 ≤ minS) ∧
      ∀ p m, rec = some (p, m) → p = s.sampling_period * 2 := by
  by_cases hlen : s.intervals.length < 2
  · simp [analyze_intervals, hlen] at h
  · obtain ⟨a, rest, he⟩ :=
      List.exists_cons_of_ne_nil (dropLast_ne_nil_of_two_le s.intervals hlen)
    simp only [analyze_intervals, if_neg hlen, he, AnalysisResult.report.injEq] at h
    obtain ⟨-, -, hmin, -, -, hrec⟩ := h
    subst hmin
    by_cases h2 : 2 ≤ rest.foldl min a
    · rw [if_pos h2] at hrec
      subst hrec
      exact ⟨by simp [h2], fun p m hpm => by simp at hpm; exact hpm.1.symm⟩
    · rw [if_neg h2] at hrec
      subst hrec
      exact ⟨by simp [h2], fun p m hpm => by simp at hpm⟩

/-- Claim C3, witness: for the interval list [2, 5, 9] the analysis reports
min 2 over the interior gaps [2, 5] and recommends the doubled period 2. -/
theorem c3_recommendation_iff_min_ge_two_witness :
    ((some ((2 : ℚ), (2 : ℤ))).isSome = true ↔ 2 ≤ (2 : ℤ)) ∧
      ∀ p m, (some ((2 : ℚ), (2 : ℤ))) = some (p, m) →
        p = (MonitorState.mk [] none [2, 5, 9] none 1).sampling_period * 2 :=
  c3_recommendation_iff_min_ge_two (MonitorState.mk [] none [2, 5, 9] none 1)
    0 3 2 (7 / 2) 5 (some (2, 2)) (by norm_num [analyze_intervals, List.dropLast])

/-- Claim C9: the second insufficient-data branch of `analyze_intervals`
("Not enough intervals for analysis", line 67) is unreachable: no state makes
the analysis return it, because any interval list that passes the first guard
has length at least 2, and dropping its last element leaves it non-empty. -/
theorem c9_second_branch_unreachable (s : MonitorState) :
    (analyze_intervals s).isNotEnoughIntervals = false := by
  by_cases h : s.intervals.length < 2
  · simp [analyze_intervals, h, AnalysisResult.isNotEnoughIntervals]
  · obtain ⟨a, rest, he⟩ :=
      List.exists_cons_of_ne_nil (dropLast_ne_nil_of_two_le s.intervals h)
    simp [analyze_intervals, h, he, AnalysisResult.isNotEnoughIntervals]

/-- One successful poll of a power value equal to the last measurement (or
following no measurement at all) leaves the interval list unchanged and makes
that value the last measurement. -/
lemma monitor_iter_const (c t : ℚ) (ls : LoopState)
    (hlm : ls.ms.last_measurement = none ∨ ls.ms.last_measurement = some c) :
    (monitor_iter ls (some (t, c))).ms.intervals = ls.ms.intervals ∧
      (monitor_iter ls (some (t, c))).ms.last_measurement = some c := by
  rcases hlm with h | h <;> simp [monitor_iter, check_value_change, h]

/-- Running the monitor over polls that all return the same power value never
touches the interval list. -/
lemma monitor_run_const (c : ℚ) (ts : List ℚ) (ls : LoopState)
    (hlm : ls.ms.last_measurement = none ∨ ls.ms.last_measurement = some c) :
    (monitor_run ls (ts.map (fun t => some (t, c)))).ms.intervals =
        ls.ms.intervals ∧
      ((monitor_run ls (ts.map (fun t => some (t, c)))).ms.last_measurement =
          none ∨
        (monitor_run ls (ts.map (fun t => some (t, c)))).ms.last_measurement =
          some c) := by
  induction ts generalizing ls with
  | nil => exact ⟨rfl, hlm⟩
  | cons t ts ih =>
      have hstep := monitor_iter_const c t ls hlm
      have hrest := ih (monitor_iter ls (some (t, c))) (Or.inr hstep.2)
      simp only [List.map_cons, monitor_run, List.foldl_cons] at hrest ⊢
      exact ⟨hrest.1.trans hstep.1, hrest.2⟩

/-- Claim C4: for every sequence of successful readings that all carry the
same power value, the monitor detects no change (the interval list stays
empty) and the analysis reports the "Not enough data" message. -/
theorem c4_constant_power_insufficient (ts : List ℚ) (c : ℚ) :
    (monitor_run init_loop (ts.map (fun t => some (t, c)))).ms.intervals =
        [] ∧
      analyze_intervals
          (monitor_run init_loop (ts.map (fun t => some (t, c)))).ms =
        .notEnoughData := by
  have h := monitor_run_const c ts init_loop (Or.inl rfl)
  have h1 : (monitor_run init_loop (ts.map (fun t => some (t, c)))).ms.intervals
      = [] := h.1
  exact ⟨h1, by simp [analyze_intervals, h1]⟩

/-- Claim C5: a failed poll is a no-op on the loop state (reading log, sample
index, change/gap state all unchanged), and consequently a run over any
interleaving of successes and failures ends in exactly the state of the run
over the successful polls alone. -/
theorem c5_failures_do_not_shift_indices (ls : LoopState)
    (polls : List (Option (ℚ × ℚ))) :
    monitor_iter ls none = ls ∧
      monitor_run ls polls =
        monitor_run ls (polls.filter (fun p => p.isSome)) := by
  refine ⟨rfl, ?_⟩
  induction polls generalizing ls with
  | nil => rfl
  | cons hd tl ih =>
      cases hd with
      | none => simpa [monitor_run, List.filter_cons, monitor_iter] using ih ls
      | some v =>
          simpa [monitor_run, List.filter_cons] using
            ih (monitor_iter ls (some v))

/-- Claim C6: on a state whose reading log is empty, `save_and_plot` takes the
"No data collected!" early return and writes no artifact. -/
theorem c6_no_data_skips_output (s : MonitorState) (h : s.data = []) :
    save_and_plot s = .noData ∧ (save_and_plot s).artifactCount = 0 := by
  simp [save_and_plot, h, SaveOutcome.artifactCount]

/-- Claim C6, witness: the fresh instance state has an empty reading log and
`save_and_plot` on it produces the no-data notice and zero artifacts. -/
theorem c6_no_data_skips_output_witness :
    save_and_plot init_state = .noData ∧
      (save_and_plot init_state).artifactCount = 0 :=
  c6_no_data_skips_output init_state rfl

/-- Claim C7: the sleep duration computed by the monitor loop equals
max(0, sampling_period - elapsed); it is never negative, and it is 0 exactly
when the iteration consumed at least one full period (otherwise it is the
remaining part of the period). -/
theorem c7_sleep_never_negative (period elapsed : ℚ) :
    sleep_time period elapsed = max 0 (period - elapsed) ∧
      0 ≤ sleep_time period elapsed ∧
      sleep_time period elapsed =
        (if period ≤ elapsed then 0 else period - elapsed) := by
  refine ⟨rfl, le_max_left _ _, ?_⟩
  by_cases h : period ≤ elapsed
  · rw [if_pos h]
    exact max_eq_left (sub_nonpos.mpr h)
  · rw [if_neg h]
    exact max_eq_right (sub_nonneg.mpr (le_of_not_le h))

/-- Claim C8: the analysis is side-effect free and idempotent: calling it
leaves the state (in particular the reading log and the stored interval list)
unchanged, and calling it a second time on the resulting state yields the very
same report. -/
theorem c8_analysis_idempotent (s : MonitorState) :
    (run_analysis s).2 = s ∧
      (run_analysis s).2.data = s.data ∧
      (run_analysis s).2.intervals = s.intervals ∧
      (run_analysis ((run_analysis s).2)).1 = (run_analysis s).1 :=
  ⟨rfl, rfl, rfl, rfl⟩

/-- Loop invariant for gap positivity: every stored interval is at least 1,
and the last change index (when set) lies strictly below the current sample
index. -/
def gap_inv (ls : LoopState) : Prop :=
  (∀ g ∈ ls.ms.intervals, 1 ≤ g) ∧
    ∀ i, ls.ms.last_change_idx = some i → i < ls.current_idx

/-- One loop iteration preserves the gap-positivity invariant: a failure
changes nothing; a success calls `check_value_change` at an index strictly
above every previously recorded change index, so any appended gap is at
least 1, and then increments the index. -/
lemma monitor_iter_gap_inv (ls : LoopState) (p : Option (ℚ × ℚ))
    (h : gap_inv ls) : gap_inv (monitor_iter ls p) := by
  obtain ⟨hg, hi⟩ := h
  cases p with
  | none => exact ⟨hg, hi⟩
  | some v =>
      obtain ⟨t, power⟩ := v
      cases hlm : ls.ms.last_measurement with
      | none =>
          refine ⟨?_, ?_⟩
          · simpa [monitor_iter, check_value_change, hlm] using hg
          · intro i h2
            simp [monitor_iter, check_value_change, hlm] at h2 ⊢
            omega
      | some last =>
          by_cases hne : last ≠ power
          · cases hlci : ls.ms.last_change_idx with
            | none =>
                refine ⟨?_, ?_⟩
                · simpa [monitor_iter, check_value_change, hlm, hne, hlci]
                    using hg
                · intro i h2
                  simp [monitor_iter, check_value_change, hlm, hne, hlci]
                    at h2 ⊢
                  omega
            | some lci =>
                have hlt : lci < ls.current_idx := hi lci hlci
                refine ⟨?_, ?_⟩
                · intro g hmem
                  simp [monitor_iter, check_value_change, hlm, hne, hlci]
                    at hmem
                  rcases hmem with hmem | rfl
                  · exact hg g hmem
                  · omega
                · intro i h2
                  simp [monitor_iter, check_value_change, hlm, hne, hlci]
                    at h2 ⊢
                  omega
          · refine ⟨?_, ?_⟩
            · simpa [monitor_iter, check_value_change, hlm, hne] using hg
            · intro i h2
              simp [monitor_iter, check_value_change, hlm, hne] at h2 ⊢
              have := hi i h2
              omega

/-- A whole run preserves the gap-positivity invariant. -/
lemma monitor_run_gap_inv (polls : List (Option (ℚ × ℚ))) (ls : LoopState)
    (h : gap_inv ls) : gap_inv (monitor_run ls polls) := by
  induction polls generalizing ls with
  | nil => exact h
  | cons p tl ih =>
      simp only [monitor_run, List.foldl_cons]
      exact ih (monitor_iter ls p) (monitor_iter_gap_inv ls p h)

/-- Folding `min` over integers all at least 1, from a seed at least 1, stays
at least 1. -/
lemma one_le_foldl_min (b : ℤ) (l : List ℤ) (hb : 1 ≤ b)
    (hl : ∀ x ∈ l, 1 ≤ x) : 1 ≤ l.foldl min b := by
  induction l generalizing b with
  | nil => exact hb
  | cons x xs ih =>
      exact ih (min b x)
        (le_min hb (hl x (List.mem_cons_self _ _)))
        (fun y hy => hl y (List.mem_cons_of_mem _ hy))

/-- Folding `max` over integers from a seed at least 1 stays at least 1. -/
lemma one_le_foldl_max (b : ℤ) (l : List ℤ) (hb : 1 ≤ b) :
    1 ≤ l.foldl max b := by
  induction l generalizing b with
  | nil => exact hb
  | cons x xs ih => exact ih (max b x) (le_trans hb (le_max_left _ _))

/-- The rational sum of a list of integers all at least 1 is at least the
list's length. -/
lemma length_le_cast_sum (l : List ℤ) (hl : ∀ x ∈ l, 1 ≤ x) :
    (l.length : ℚ) ≤ ((l.map (Int.cast : ℤ → ℚ)).sum) := by
  induction l with
  | nil => simp
  | cons x xs ih =>
      simp only [List.map_cons, List.sum_cons, List.length_cons]
      have hx : (1 : ℚ) ≤ (x : ℚ) := by
        exact_mod_cast hl x (List.mem_cons_self _ _)
      have hxs := ih (fun y hy => hl y (List.mem_cons_of_mem _ hy))
      push_cast
      linarith

/-- Claim C10: every gap the monitor ever appends to the interval list is at
least 1 sample (the sample index strictly increases between successful polls
and the last change index always lags the current index), and consequently
whenever the analysis produces a report its min, mean and max gap values are
all at least 1. -/
theorem c10_gaps_positive (polls : List (Option (ℚ × ℚ))) :
    (∀ g ∈ (monitor_run init_loop polls).ms.intervals, 1 ≤ g) ∧
      ∀ t c minS avg maxS rec,
        analyze_intervals (monitor_run init_loop polls).ms =
            .report t c minS avg maxS rec →
          1 ≤ minS ∧ 1 ≤ avg ∧ 1 ≤ maxS := by
  have hinv : gap_inv (monitor_run init_loop polls) :=
    monitor_run_gap_inv polls init_loop
      ⟨fun g hg => by simp [init_loop, init_state] at hg,
        fun i hi => by simp [init_loop, init_state] at hi⟩
  refine ⟨hinv.1, ?_⟩
  intro t c minS avg maxS rec h
  by_cases hlen : (monitor_run init_loop polls).ms.intervals.length < 2
  · simp [analyze_intervals, hlen] at h
  · obtain ⟨a, rest, he⟩ :=
      List.exists_cons_of_ne_nil
        (dropLast_ne_nil_of_two_le (monitor_run init_loop polls).ms.intervals
          hlen)
    have hall : ∀ x ∈ a :: rest, 1 ≤ x := by
      intro x hx
      exact hinv.1 x
        ((List.dropLast_sublist
            (monitor_run init_loop polls).ms.intervals).subset (he ▸ hx))
    have ha : (1 : ℤ) ≤ a := hall a (List.mem_cons_self _ _)
    simp only [analyze_intervals, if_neg hlen, he,
      AnalysisResult.report.injEq] at h
    obtain ⟨-, -, hmin, havg, hmax, -⟩ := h
    refine ⟨?_, ?_, ?_⟩
    · rw [← hmin]
      exact one_le_foldl_min a rest ha
        (fun y hy => hall y (List.mem_cons_of_mem _ hy))
    · rw [← havg]
      have hlenpos : (0 : ℚ) < ((a :: rest).length : ℚ) := by
        exact_mod_cast Nat.succ_pos rest.length
      rw [le_div_iff₀ hlenpos, one_mul]
      exact length_le_cast_sum (a :: rest) hall
    · rw [← hmax]
      exact one_le_foldl_max a rest ha

/-- Claim C10, witness: in the run over the power sequence [5,5,5,7,7,7,7,3]
the stored gap 3 is at least 1, and the reported min (3), mean (3) and max
(3) are all at least 1. -/
theorem c10_gaps_positive_witness :
    ((1 : ℤ) ≤ 3) ∧ ((1 : ℤ) ≤ 3 ∧ (1 : ℚ) ≤ 3 ∧ (1 : ℤ) ≤ 3) :=
  ⟨(c10_gaps_positive
      (([5, 5, 5, 7, 7, 7, 7, 3] : List ℚ).map (fun p => some (0, p)))).1
      3 (by rw [monitor_run_5577_state]; decide),
    (c10_gaps_positive
      (([5, 5, 5, 7, 7, 7, 7, 3] : List ℚ).map (fun p => some (0, p)))).2
      8 2 3 3 3 (some (2, 3))
      (by rw [monitor_run_5577_state]; exact analyze_intervals_34_report)⟩

end ShellyMonitor
